import Mathlib

set_option linter.unusedVariables false

/-!
Verification of the CyberPower SNMP user-GPIO driver
(`kvmd/plugins/ugpio/cyberpower.py`).

The driver keeps an in-memory state table `self.__state : dict[str, bool | None]`
mapping pin identifiers to tri-state outlet readings, where Python `None`
means "unknown".  We embed:

* the table as an insertion-ordered association list (`Table`), since Python
  dicts preserve insertion order and the driver iterates over the table;
* Python `None` as `Option.none`;
* the external `snmpwalk` / `snmpset` invocation (`aioproc.read_process`) as
  an opaque `TransportOutcome` supplied per call: the call either raises or
  returns an exit status plus captured text;
* exceptions as explicit sum types (`Except`, `ReadResult`, `WriteResult`);
* the `run` loop's local variable `prev_state` together with an aliasing flag,
  because `prev_state = self.__state` in Python copies a reference, and the
  per-pin update `self.__state[pin] = v` mutates the dict in place while the
  failure handler `self.__state = dict.fromkeys(self.__state, None)` rebinds
  the name to a fresh dict.
-/

namespace Cyberpower

/-- Pin identifiers are opaque strings (`get_pin_validator` admits any
non-empty stripped string). -/
abbrev Pin := String

/-- An outlet reading: `none` models Python `None` (unknown), `some b` a known
boolean reading. -/
abbrev Reading := Option Bool

/-- The state table `self.__state : dict[str, bool | None]`, embedded as an
insertion-ordered association list. -/
abbrev Table := List (Pin × Reading)

/-- Python `d[pin]` lookup; `none` models a `KeyError` (pin absent). -/
def dictGet : Table → Pin → Option Reading
  | [], _ => none
  | kv :: rest, pin => if kv.1 = pin then some kv.2 else dictGet rest pin

/-- Python `d[pin] = v`: overwrite in place if the key is present, otherwise
append at the end (insertion order). -/
def dictSet : Table → Pin → Reading → Table
  | [], pin, v => [(pin, v)]
  | kv :: rest, pin, v => if kv.1 = pin then (pin, v) :: rest else kv :: dictSet rest pin v

/-- Python `dict.fromkeys(self.__state, None)`: the same keys in the same
order, every value `None`. -/
def degrade (t : Table) : Table := t.map (fun kv => (kv.1, (none : Reading)))

/-- The key list of the table, in insertion order. -/
def keysOf (t : Table) : List Pin := t.map Prod.fst

/-- Python dict equality `d1 == d2`: the same key set and the same value at
every key (order does not matter for `==`). -/
def dictEqb (d1 d2 : Table) : Bool :=
  d1.all (fun kv => dictGet d2 kv.1 == some kv.2) &&
  d2.all (fun kv => dictGet d1 kv.1 == some kv.2)

/-- Python `self.__state != prev_state` where `prev_state : dict | None`:
a dict is never equal to `None`. -/
def pyNeq (t : Table) (prev : Option Table) : Bool :=
  match prev with
  | none => true
  | some p => ! dictEqb t p

/-- The `(proc, text)` result of `aioproc.read_process`: the process exit
status and the captured output text. -/
structure ProcResult where
  returncode : Int
  text : String
  deriving DecidableEq, Repr

/-- Outcome of one external transport invocation: the call either raises an
exception or returns normally with a `ProcResult`. -/
inductive TransportOutcome where
  | exn
  | ok (res : ProcResult)
  deriving DecidableEq, Repr

/-- Python exceptions raised inside the driver's polling and set helpers. -/
inductive PyExn where
  | runtimeError
  | keyError
  | indexError
  | transportError
  deriving DecidableEq, Repr

/-- The response code table `_INPUTS` of the source: the character `1` maps to
on (`true`), the character `2` to off (`false`); `none` models the `KeyError`
raised by the subscript on any other character. -/
def _INPUTS (c : Char) : Option Bool :=
  if c = '1' then some true else if c = '2' then some false else none

/-- The action code table `_OUTPUTS` of the source, restricted to the boolean
actions reachable from `write` (the `cycle` action is not reachable through
the boolean `write` entry point). -/
def _OUTPUTS (st : Bool) : String := if st then "1" else "2"

/-- Whitespace characters removed by Python `str.strip()` (the ASCII ones:
space, tab, newline, carriage return, vertical tab, form feed). -/
def pyIsSpace (c : Char) : Bool :=
  c = ' ' || c = '\t' || c = '\n' || c = '\r' || c = Char.ofNat 11 || c = Char.ofNat 12

/-- Python `text.strip()`: drop whitespace from both ends, embedded over the
character list of the string. -/
def pyStrip (l : List Char) : List Char :=
  ((l.dropWhile pyIsSpace).reverse.dropWhile pyIsSpace).reverse

/-- Python `s.startswith(head)`: `startsWithL s head` is true when `head` is
an initial segment of `s`. -/
def startsWithL : (s head : List Char) → Bool
  | _, [] => true
  | [], _ :: _ => false
  | c :: cs, h :: hs => h = c && startsWithL cs hs

/-- The literal head the driver requires of a response line, rendered from the
f-string of the source: the outlet base object identifier, then `.4.`, then
the pin, then the literal text ` = INTEGER: `. -/
def respHeadL (oid pin : String) : List Char :=
  oid.data ++ ".4.".data ++ pin.data ++ " = INTEGER: ".data

/-- `Plugin.register_input`: `self.__state[pin] = None` (the debounce argument
is discarded). -/
def register_input (t : Table) (pin : Pin) : Table := dictSet t pin none

/-- `Plugin.register_output`: `self.__state[pin] = initial`. -/
def register_output (t : Table) (pin : Pin) (initial : Reading) : Table :=
  dictSet t pin initial

/-- One registration call made by the host before `run` begins. -/
inductive RegOp where
  | inp (pin : Pin)
  | out (pin : Pin) (initial : Reading)
  deriving DecidableEq, Repr

/-- Apply one registration call to the table. -/
def applyReg (t : Table) (r : RegOp) : Table :=
  match r with
  | .inp pin => register_input t pin
  | .out pin v => register_output t pin v

/-- Apply a whole registration sequence to the table. -/
def registerAll (t : Table) (regs : List RegOp) : Table := regs.foldl applyReg t

/-- The pin named by a registration call. -/
def regPin : RegOp → Pin
  | .inp pin => pin
  | .out pin _ => pin

/-- The pins named by a registration sequence, in order. -/
def regPins (regs : List RegOp) : List Pin := regs.map regPin

/-- The `try` block of `Plugin.__update_power`: run the status command;
require exit status 0 (else `raise RuntimeError`); strip the captured text;
require it to start with the response head (else `raise RuntimeError`); decode
the final character of the stripped text through `_INPUTS` (a `KeyError` on
any other character) and store the decoded reading for `pin`.  `Except.error`
models an exception escaping the block; the table is untouched in that case
because the single assignment is the last action before `return`. -/
def updatePowerBody (oid : String) (pin : Pin) (o : TransportOutcome) (t : Table) :
    Except PyExn Table :=
  match o with
  | .exn => .error .transportError
  | .ok res =>
    if res.returncode ≠ 0 then .error .runtimeError
    else
      let stripped := pyStrip res.text.data
      if startsWithL stripped (respHeadL oid pin) then
        match stripped.getLast? with
        | some c =>
          match _INPUTS c with
          | some b => .ok (dictSet t pin (some b))
          | none => .error .keyError
        | none => .error .indexError
      else .error .runtimeError

/-- `Plugin.__update_power` as a whole: its `except Exception` handler logs
and replaces the entire table with `dict.fromkeys(self.__state, None)`; the
handler does not re-raise, so the method denotes a total function on the
table. -/
def updatePower (oid : String) (pin : Pin) (o : TransportOutcome) (t : Table) : Table :=
  match updatePowerBody oid pin o t with
  | .ok t1 => t1
  | .error _ => degrade t

/-- The `try` block of `Plugin.__set_power`: identical response handling to
`updatePowerBody`, applied to the output of the set command (the desired
boolean only affects the rendered command line through `_OUTPUTS`, which the
supplied `TransportOutcome` already accounts for). -/
def setPowerBody (oid : String) (pin : Pin) (st : Bool) (o : TransportOutcome) (t : Table) :
    Except PyExn Table :=
  match o with
  | .exn => .error .transportError
  | .ok res =>
    if res.returncode ≠ 0 then .error .runtimeError
    else
      let stripped := pyStrip res.text.data
      if startsWithL stripped (respHeadL oid pin) then
        match stripped.getLast? with
        | some c =>
          match _INPUTS c with
          | some b => .ok (dictSet t pin (some b))
          | none => .error .keyError
        | none => .error .indexError
      else .error .runtimeError

/-- `Plugin.__set_power` as a whole: like `__update_power`, its
`except Exception` handler logs, degrades the whole table and returns
normally without re-raising, so the method denotes a total function. -/
def setPower (oid : String) (pin : Pin) (st : Bool) (o : TransportOutcome) (t : Table) : Table :=
  match setPowerBody oid pin st o t with
  | .ok t1 => t1
  | .error _ => degrade t

/-- Observable actions taken by `Plugin.write` after the set attempt:
the sleep for `self.__switch_delay` seconds and the change notification
`self._notifier.notify()`. -/
inductive Action where
  | sleepSettle
  | notifyHost
  deriving DecidableEq, Repr

/-- Result of `Plugin.write`: either the method raises
`GpioDriverOfflineError`, or it returns normally having performed the listed
actions in program order on the resulting table. -/
inductive WriteResult where
  | offline
  | ok (t : Table) (actions : List Action)
  deriving DecidableEq, Repr

/-- `Plugin.write`: `try: await self.__set_power(state, pin)` — but
`__set_power` returns normally on every input because its own handler catches
every `Exception` and does not re-raise, so the
`except Exception: raise GpioDriverOfflineError(self)` clause of `write` is
unreachable; `write` then sleeps for the switch delay and raises exactly one
change notification, recorded here in program order. -/
def write (oid : String) (pin : Pin) (st : Bool) (o : TransportOutcome) (t : Table) :
    WriteResult :=
  WriteResult.ok (setPower oid pin st o t) [Action.sleepSettle, Action.notifyHost]

/-- Result of `Plugin.read`: the subscript `self.__state[pin]` raises
`KeyError` for an unregistered pin; a registered pin with reading `None`
raises `GpioDriverOfflineError`; otherwise the stored boolean is returned. -/
inductive ReadResult where
  | keyError
  | offline
  | value (b : Bool)
  deriving DecidableEq, Repr

/-- `Plugin.read`: a pure lookup against the state table — the method body
contains no assignment and no poll, only the subscript and the `None` test. -/
def read (t : Table) (pin : Pin) : ReadResult :=
  match dictGet t pin with
  | none => .keyError
  | some none => .offline
  | some (some b) => .value b

/-- The local frame of `Plugin.run`: the current table `self.__state`, the
local variable `prev_state` (`none` models Python `None`), and whether
`prev_state` currently refers to the same dict object as `self.__state`.
The flag is needed because `prev_state = self.__state` copies a reference:
the per-pin assignment `self.__state[pin] = v` mutates the shared object
(visible through `prev_state`), while the failure handler
`self.__state = dict.fromkeys(self.__state, None)` rebinds the attribute to a
fresh dict and thereby breaks the alias. -/
structure RunState where
  state : Table
  prev : Option Table
  aliased : Bool
  deriving DecidableEq, Repr

/-- Effect of one `await self.__update_power(pin)` call on the `run` frame:
a successful decode assigns into the current dict in place, so the new table
is also seen through `prev_state` whenever `prev_state` aliases it; the
failure handler rebinds `self.__state` to a fresh degraded dict, leaving
`prev_state` pointing at the old object. -/
def updatePowerRun (oid : String) (env : Pin → TransportOutcome) (pin : Pin)
    (rs : RunState) : RunState :=
  match updatePowerBody oid pin (env pin) rs.state with
  | .ok t1 =>
    { state := t1, prev := if rs.aliased then some t1 else rs.prev, aliased := rs.aliased }
  | .error _ =>
    { state := degrade rs.state, prev := rs.prev, aliased := false }

/-- The comparison and notification tail of one reconciliation pass of
`Plugin.run`: test `self.__state != prev_state`; on a difference, log, notify,
and execute `prev_state = self.__state`, which installs the alias.  The
returned boolean records whether the pass raised a change notification. -/
def runPassNotify (rs1 : RunState) : RunState × Bool :=
  if pyNeq rs1.state rs1.prev then
    ({ state := rs1.state, prev := some rs1.state, aliased := true }, true)
  else (rs1, false)

/-- One full reconciliation pass: the polling phase over every key of the
table current at loop entry, followed by the comparison and notification
tail. -/
def runPass (oid : String) (env : Pin → TransportOutcome) (rs : RunState) :
    RunState × Bool :=
  runPassNotify ((keysOf rs.state).foldl (fun s p => updatePowerRun oid env p s) rs)

/-- Finitely many iterations of the unbounded `while True` loop of
`Plugin.run`, one transport environment per pass; returns the final frame and
the per-pass notification decisions, in order. -/
def runPasses (oid : String) (envs : List (Pin → TransportOutcome)) (rs : RunState) :
    RunState × List Bool :=
  match envs with
  | [] => (rs, [])
  | env :: rest =>
    ((runPasses oid rest (runPass oid env rs).1).1,
     (runPass oid env rs).2 :: (runPasses oid rest (runPass oid env rs).1).2)

/-- The initial `run` frame: whatever table registration built, with
`prev_state = None` and no alias. -/
def initFrame (t : Table) : RunState := { state := t, prev := none, aliased := false }

/-- One operation addressed to the driver after registration: a full
reconciliation pass, a `read`, or a `write`.  Used to state the key-set
invariant of the state table. -/
inductive DriverOp where
  | pollPass (env : Pin → TransportOutcome)
  | readOp (pin : Pin)
  | writeOp (pin : Pin) (st : Bool) (o : TransportOutcome)

/-- Effect of one operation on the state table.  `read` contains no
assignment, a pass runs `__update_power` over every key of the table, and
`write` runs `__set_power`. -/
def applyOp (oid : String) (t : Table) (op : DriverOp) : Table :=
  match op with
  | .pollPass env => (keysOf t).foldl (fun s p => updatePower oid p (env p) s) t
  | .readOp _ => t
  | .writeOp pin st o => setPower oid pin st o t

/-- Whether an operation's write target (if any) is a registered pin. -/
def writeTargetOk (regs : List RegOp) : DriverOp → Bool
  | .writeOp pin _ _ => decide (pin ∈ regPins regs)
  | _ => true

/-! Helper lemmas about the table operations. -/

theorem keysOf_degrade (t : Table) : keysOf (degrade t) = keysOf t := by
  simp [degrade, keysOf]

theorem mem_degrade (t : Table) (kv : Pin × Reading) (h : kv ∈ degrade t) :
    kv.2 = (none : Reading) := by
  obtain ⟨a, _, rfl⟩ := List.mem_map.mp h
  rfl

theorem keysOf_nil : keysOf [] = [] := rfl

theorem keysOf_cons (kv : Pin × Reading) (rest : Table) :
    keysOf (kv :: rest) = kv.1 :: keysOf rest := rfl

theorem keysOf_dictSet (t : Table) (pin : Pin) (v : Reading) :
    keysOf (dictSet t pin v) =
      if pin ∈ keysOf t then keysOf t else keysOf t ++ [pin] := by
  induction t with
  | nil => simp [dictSet, keysOf_nil, keysOf_cons]
  | cons kv rest ih =>
    by_cases hk : kv.1 = pin
    · simp [dictSet, hk, keysOf_cons]
    · by_cases hm : pin ∈ keysOf rest
      · simp [dictSet, hk, keysOf_cons, ih, hm, Ne.symm hk]
      · simp [dictSet, hk, keysOf_cons, ih, hm, Ne.symm hk]

theorem mem_keysOf_dictSet (t : Table) (p pin : Pin) (v : Reading) :
    p ∈ keysOf (dictSet t pin v) ↔ p = pin ∨ p ∈ keysOf t := by
  rw [keysOf_dictSet]
  by_cases hm : pin ∈ keysOf t
  · simp only [hm, if_true]
    constructor
    · exact Or.inr
    · rintro (rfl | hp)
      · exact hm
      · exact hp
  · simp [hm, List.mem_append, or_comm]

theorem nodup_keysOf_dictSet (t : Table) (pin : Pin) (v : Reading)
    (h : (keysOf t).Nodup) : (keysOf (dictSet t pin v)).Nodup := by
  rw [keysOf_dictSet]
  by_cases hm : pin ∈ keysOf t
  · simpa [hm] using h
  · simp [hm, List.nodup_append, h]

theorem registerAll_cons (t : Table) (r : RegOp) (rest : List RegOp) :
    registerAll t (r :: rest) = registerAll (applyReg t r) rest := rfl

theorem mem_keysOf_applyReg (t : Table) (r : RegOp) (p : Pin) :
    p ∈ keysOf (applyReg t r) ↔ p = regPin r ∨ p ∈ keysOf t := by
  cases r with
  | inp pin => exact mem_keysOf_dictSet t p pin none
  | out pin v => exact mem_keysOf_dictSet t p pin v

theorem mem_keysOf_registerAll (regs : List RegOp) :
    ∀ (t : Table) (p : Pin),
      p ∈ keysOf (registerAll t regs) ↔ p ∈ keysOf t ∨ p ∈ regPins regs := by
  induction regs with
  | nil => intro t p; simp [registerAll, regPins]
  | cons r rest ih =>
    intro t p
    rw [registerAll_cons, ih, mem_keysOf_applyReg]
    simp only [regPins, List.map_cons, List.mem_cons]
    tauto

theorem nodup_keysOf_registerAll (regs : List RegOp) :
    ∀ t : Table, (keysOf t).Nodup → (keysOf (registerAll t regs)).Nodup := by
  induction regs with
  | nil => exact fun t h => h
  | cons r rest ih =>
    intro t h
    rw [registerAll_cons]
    apply ih
    cases r with
    | inp pin => exact nodup_keysOf_dictSet t pin none h
    | out pin v => exact nodup_keysOf_dictSet t pin v h

theorem updatePower_shape (oid : String) (pin : Pin) (o : TransportOutcome) (t : Table) :
    updatePower oid pin o t = degrade t ∨
    ∃ b, updatePower oid pin o t = dictSet t pin (some b) := by
  cases o with
  | exn => exact Or.inl rfl
  | ok res =>
    by_cases hrc : res.returncode ≠ 0
    · exact Or.inl (by simp [updatePower, updatePowerBody, hrc])
    · by_cases hpre : startsWithL (pyStrip res.text.data) (respHeadL oid pin) = true
      · cases hlast : (pyStrip res.text.data).getLast? with
        | none => exact Or.inl (by simp [updatePower, updatePowerBody, hrc, hpre, hlast])
        | some c =>
          cases hin : _INPUTS c with
          | none =>
            exact Or.inl (by simp [updatePower, updatePowerBody, hrc, hpre, hlast, hin])
          | some b =>
            exact Or.inr ⟨b, by simp [updatePower, updatePowerBody, hrc, hpre, hlast, hin]⟩
      · exact Or.inl (by simp [updatePower, updatePowerBody, hrc, hpre])

theorem setPower_shape (oid : String) (pin : Pin) (st : Bool) (o : TransportOutcome)
    (t : Table) :
    setPower oid pin st o t = degrade t ∨
    ∃ b, setPower oid pin st o t = dictSet t pin (some b) := by
  cases o with
  | exn => exact Or.inl rfl
  | ok res =>
    by_cases hrc : res.returncode ≠ 0
    · exact Or.inl (by simp [setPower, setPowerBody, hrc])
    · by_cases hpre : startsWithL (pyStrip res.text.data) (respHeadL oid pin) = true
      · cases hlast : (pyStrip res.text.data).getLast? with
        | none => exact Or.inl (by simp [setPower, setPowerBody, hrc, hpre, hlast])
        | some c =>
          cases hin : _INPUTS c with
          | none =>
            exact Or.inl (by simp [setPower, setPowerBody, hrc, hpre, hlast, hin])
          | some b =>
            exact Or.inr ⟨b, by simp [setPower, setPowerBody, hrc, hpre, hlast, hin]⟩
      · exact Or.inl (by simp [setPower, setPowerBody, hrc, hpre])

theorem keysOf_updatePower (oid : String) (pin : Pin) (o : TransportOutcome) (t : Table)
    (h : pin ∈ keysOf t) : keysOf (updatePower oid pin o t) = keysOf t := by
  rcases updatePower_shape oid pin o t with h1 | ⟨b, h1⟩
  · rw [h1]; exact keysOf_degrade t
  · rw [h1, keysOf_dictSet]; simp [h]

theorem keysOf_pollFold (oid : String) (env : Pin → TransportOutcome) :
    ∀ (pins : List Pin) (t : Table), (∀ p ∈ pins, p ∈ keysOf t) →
      keysOf (pins.foldl (fun s p => updatePower oid p (env p) s) t) = keysOf t := by
  intro pins
  induction pins with
  | nil => intro t _; rfl
  | cons q rest ih =>
    intro t hp
    have h1 : keysOf (updatePower oid q (env q) t) = keysOf t :=
      keysOf_updatePower oid q (env q) t (hp q (List.mem_cons_self q rest))
    rw [List.foldl_cons,
      ih _ (fun p hpr => by rw [h1]; exact hp p (List.mem_cons_of_mem q hpr)), h1]

theorem keysOf_applyOp (oid : String) (regs : List RegOp) (t : Table) (op : DriverOp)
    (hok : writeTargetOk regs op = true)
    (hreg : ∀ p ∈ regPins regs, p ∈ keysOf t) :
    keysOf (applyOp oid t op) = keysOf t := by
  cases op with
  | pollPass env => exact keysOf_pollFold oid env (keysOf t) t (fun p hp => hp)
  | readOp pin => rfl
  | writeOp pin st o =>
    have hpin : pin ∈ regPins regs := of_decide_eq_true hok
    show keysOf (setPower oid pin st o t) = keysOf t
    rcases setPower_shape oid pin st o t with h1 | ⟨b, h1⟩
    · rw [h1]; exact keysOf_degrade t
    · rw [h1, keysOf_dictSet]; simp [hreg pin hpin]

theorem keysOf_opsFold (oid : String) (regs : List RegOp) :
    ∀ (ops : List DriverOp) (t : Table), ops.all (writeTargetOk regs) = true →
      (∀ p ∈ regPins regs, p ∈ keysOf t) →
      keysOf (ops.foldl (applyOp oid) t) = keysOf t := by
  intro ops
  induction ops with
  | nil => intro t _ _; rfl
  | cons op rest ih =>
    intro t hall hreg
    have hok : writeTargetOk regs op = true ∧ rest.all (writeTargetOk regs) = true := by
      simpa [List.all_cons, Bool.and_eq_true] using hall
    have h1 := keysOf_applyOp oid regs t op hok.1 hreg
    rw [List.foldl_cons, ih _ hok.2 (fun p hp => by rw [h1]; exact hreg p hp), h1]

/-! Claim theorems. -/

/-- Claim C2 (code bug witness computation): when the set command's transport
invocation fails (here: exit status 1), `write` degrades every pin's reading
to unknown but still returns normally — it sleeps, notifies, and does NOT
raise `GpioDriverOfflineError`, because `__set_power` catches the failure
itself and `write`'s re-raising handler is unreachable. -/
theorem write_transport_failure_returns_normally :
    write "O" "1" true (TransportOutcome.ok ⟨1, ""⟩) [("1", some false), ("2", some true)] =
      WriteResult.ok [("1", none), ("2", none)] [Action.sleepSettle, Action.notifyHost] := by
  decide

/-- Claim C3: every call of `write` returns without raising, and on the way
out it performs the settle sleep and then exactly one change notification —
the notification never precedes the sleep — regardless of whether the
underlying set command succeeded or failed. -/
theorem write_sleeps_then_notifies_once (oid : String) (pin : Pin) (st : Bool)
    (o : TransportOutcome) (t : Table) :
    ∃ t1 pre post,
      write oid pin st o t = WriteResult.ok t1 (pre ++ Action.notifyHost :: post) ∧
      Action.sleepSettle ∈ pre ∧ Action.notifyHost ∉ pre ∧ Action.notifyHost ∉ post :=
  ⟨setPower oid pin st o t, [Action.sleepSettle], [], rfl, by decide, by decide, by decide⟩

/-- Claim C4: whenever the transport invocation for the polled pin fails
(exception or non-zero exit status) or its output fails to decode (head
mismatch, unrecognized final character, or empty stripped text), the poll step
leaves every pin of the table — not only the polled one — with reading
unknown, and the key list is unchanged. -/
theorem poll_failure_degrades_whole_table (oid : String) (pin : Pin)
    (o : TransportOutcome) (t : Table)
    (h : o = TransportOutcome.exn ∨ ∃ res, o = TransportOutcome.ok res ∧
        (res.returncode ≠ 0 ∨
         startsWithL (pyStrip res.text.data) (respHeadL oid pin) = false ∨
         (∃ c, (pyStrip res.text.data).getLast? = some c ∧ _INPUTS c = none) ∨
         (pyStrip res.text.data).getLast? = none)) :
    updatePower oid pin o t = degrade t ∧
    keysOf (updatePower oid pin o t) = keysOf t ∧
    ∀ kv ∈ updatePower oid pin o t, kv.2 = (none : Reading) := by
  have hbody : ∃ e, updatePowerBody oid pin o t = Except.error e := by
    rcases h with rfl | ⟨res, rfl, hfail⟩
    · exact ⟨PyExn.transportError, rfl⟩
    · by_cases hrc : res.returncode ≠ 0
      · exact ⟨PyExn.runtimeError, by simp [updatePowerBody, hrc]⟩
      · rcases hfail with h1 | h1 | ⟨c, hc, hin⟩ | h1
        · exact absurd h1 hrc
        · exact ⟨PyExn.runtimeError, by simp [updatePowerBody, hrc, h1]⟩
        · by_cases hpre : startsWithL (pyStrip res.text.data) (respHeadL oid pin) = true
          · exact ⟨PyExn.keyError, by simp [updatePowerBody, hrc, hpre, hc, hin]⟩
          · exact ⟨PyExn.runtimeError, by simp [updatePowerBody, hrc, hpre]⟩
        · by_cases hpre : startsWithL (pyStrip res.text.data) (respHeadL oid pin) = true
          · exact ⟨PyExn.indexError, by simp [updatePowerBody, hrc, hpre, h1]⟩
          · exact ⟨PyExn.runtimeError, by simp [updatePowerBody, hrc, hpre]⟩
  obtain ⟨e, he⟩ := hbody
  have hup : updatePower oid pin o t = degrade t := by simp [updatePower, he]
  refine ⟨hup, ?_, ?_⟩
  · rw [hup]; exact keysOf_degrade t
  · rw [hup]; exact fun kv hkv => mem_degrade t kv hkv

/-- Witness for C4 at a concrete input: a transport exception while polling
pin 1 blanks the readings of both registered pins. -/
theorem poll_failure_degrades_whole_table_witness :
    updatePower "O" "1" TransportOutcome.exn [("1", some true), ("2", some false)] =
      [("1", none), ("2", none)] := by
  have h := poll_failure_degrades_whole_table "O" "1" TransportOutcome.exn
      [("1", some true), ("2", some false)] (Or.inl rfl)
  exact h.1.trans (by decide)

/-- Claim C5: the decoder strips surrounding whitespace, requires the stripped
text to start with the head rendered from the outlet base identifier and the
pin, and maps the final character of the stripped text through the two-entry
table `_INPUTS` (character 1 to on, character 2 to off); any other final
character, any head mismatch, and any non-zero transport exit status are all
treated identically — each produces whole-table degradation, never a distinct
outlet value. -/
theorem decode_table_and_failure_modes (oid pin : String) :
    (∀ text t, startsWithL (pyStrip (String.data text)) (respHeadL oid pin) = true →
        (pyStrip (String.data text)).getLast? = some '1' →
        updatePower oid pin (TransportOutcome.ok ⟨0, text⟩) t = dictSet t pin (some true)) ∧
    (∀ text t, startsWithL (pyStrip (String.data text)) (respHeadL oid pin) = true →
        (pyStrip (String.data text)).getLast? = some '2' →
        updatePower oid pin (TransportOutcome.ok ⟨0, text⟩) t = dictSet t pin (some false)) ∧
    (∀ text t c, startsWithL (pyStrip (String.data text)) (respHeadL oid pin) = true →
        (pyStrip (String.data text)).getLast? = some c → _INPUTS c = none →
        updatePower oid pin (TransportOutcome.ok ⟨0, text⟩) t = degrade t) ∧
    (∀ text t, startsWithL (pyStrip (String.data text)) (respHeadL oid pin) = false →
        updatePower oid pin (TransportOutcome.ok ⟨0, text⟩) t = degrade t) ∧
    (∀ res t, res.returncode ≠ 0 →
        updatePower oid pin (TransportOutcome.ok res) t = degrade t) ∧
    (∀ t, updatePower oid pin TransportOutcome.exn t = degrade t) := by
  refine ⟨?_, ?_, ?_, ?_, ?_, ?_⟩
  · intro text t h1 h2
    simp [updatePower, updatePowerBody, h1, h2, _INPUTS]
  · intro text t h1 h2
    simp [updatePower, updatePowerBody, h1, h2, _INPUTS]
  · intro text t c h1 h2 h3
    simp [updatePower, updatePowerBody, h1, h2, h3]
  · intro text t h1
    simp [updatePower, updatePowerBody, h1]
  · intro res t h1
    simp [updatePower, updatePowerBody, h1]
  · intro t
    rfl

/-- Witness for C5 at concrete inputs: a well-formed response with final
character 1 decodes to on for the polled pin, and a head mismatch degrades
the whole table. -/
theorem decode_table_and_failure_modes_witness :
    updatePower "O" "1" (TransportOutcome.ok ⟨0, " O.4.1 = INTEGER: 1 "⟩)
        [("1", none), ("2", some false)] = [("1", some true), ("2", some false)] ∧
    updatePower "O" "1" (TransportOutcome.ok ⟨0, "nonsense"⟩)
        [("1", some true)] = [("1", none)] := by
  constructor
  · have h := (decode_table_and_failure_modes "O" "1").1 " O.4.1 = INTEGER: 1 "
        [("1", none), ("2", some false)] (by decide) (by decide)
    exact h.trans (by decide)
  · have h := (decode_table_and_failure_modes "O" "1").2.2.2.1 "nonsense"
        [("1", some true)] (by decide)
    exact h.trans (by decide)

/-- Claim C6: for a registered pin, `read` raises the device-offline error if
and only if the pin's current reading is unknown, and otherwise returns the
stored boolean; the method is a pure lookup (its body contains no assignment
and no poll call, which is why it is embedded as a function of the table). -/
theorem read_offline_iff_unknown (t : Table) (pin : Pin) (r : Reading)
    (h : dictGet t pin = some r) :
    (read t pin = ReadResult.offline ↔ r = none) ∧
    (∀ b, r = some b → read t pin = ReadResult.value b) := by
  cases r with
  | none => simp [read, h]
  | some b => simp [read, h]

/-- Witness for C6 at concrete inputs: an unknown reading raises offline, a
known reading is returned. -/
theorem read_offline_iff_unknown_witness :
    read [("1", (none : Reading))] "1" = ReadResult.offline ∧
    read [("2", (some true : Reading))] "2" = ReadResult.value true := by
  constructor
  · exact (read_offline_iff_unknown [("1", none)] "1" none (by decide)).1.mpr rfl
  · exact (read_offline_iff_unknown [("2", some true)] "2" (some true) (by decide)).2 true rfl

/-- Claim C8: the reconciliation loop absorbs every transport and decode error
inside the pass — an erroring poll step becomes whole-table degradation
rather than a propagating exception — and the loop completes every scheduled
pass, producing exactly one notification decision per pass, whatever the
outcomes. -/
theorem run_survives_protocol_errors (oid : String)
    (envs : List (Pin → TransportOutcome)) (rs : RunState) :
    (runPasses oid envs rs).2.length = envs.length ∧
    (∀ pin o t e, updatePowerBody oid pin o t = Except.error e →
      updatePower oid pin o t = degrade t) := by
  constructor
  · induction envs generalizing rs with
    | nil => rfl
    | cons env rest ih => simp [runPasses, ih]
  · intro pin o t e he
    simp [updatePower, he]

/-- Witness for C8 at a concrete input: a one-pass schedule where the only
poll raises still yields one notification decision, and the erroring step
degraded the table. -/
theorem run_survives_protocol_errors_witness :
    (runPasses "O" [fun _ => TransportOutcome.exn] (initFrame [("1", some true)])).2.length =
      [fun (_ : Pin) => TransportOutcome.exn].length ∧
    updatePower "O" "1" TransportOutcome.exn [("1", some true)] =
      degrade [("1", some true)] := by
  have h := run_survives_protocol_errors "O" [fun _ => TransportOutcome.exn]
      (initFrame [("1", some true)])
  exact ⟨h.1, h.2 "1" TransportOutcome.exn [("1", some true)] PyExn.transportError rfl⟩

/-- Polling with `prev_state = None` and no alias leaves `prev_state = None`
and no alias: the per-pin update only writes `prev` through an existing
alias, and the failure handler clears the alias flag. -/
theorem pollFold_fresh (oid : String) (env : Pin → TransportOutcome) (pins : List Pin) :
    ∀ rs : RunState, rs.prev = none → rs.aliased = false →
      ((pins.foldl (fun s p => updatePowerRun oid env p s) rs).prev = none ∧
       (pins.foldl (fun s p => updatePowerRun oid env p s) rs).aliased = false) := by
  induction pins with
  | nil => exact fun rs h1 h2 => ⟨h1, h2⟩
  | cons p rest ih =>
    intro rs h1 h2
    have hstep : (updatePowerRun oid env p rs).prev = none ∧
        (updatePowerRun oid env p rs).aliased = false := by
      cases hb : updatePowerBody oid p (env p) rs.state with
      | ok t1 => simp [updatePowerRun, hb, h1, h2]
      | error e => simp [updatePowerRun, hb, h1]
    rw [List.foldl_cons]
    exact ih _ hstep.1 hstep.2

/-- Claim C9: the very first reconciliation pass of `run` always raises a
change notification — for every registered table (including the empty one)
and every poll outcome — because `prev_state` starts as the sentinel `None`,
and a dict never compares equal to `None`. -/
theorem first_pass_always_notifies (oid : String) (env : Pin → TransportOutcome)
    (t : Table) :
    (runPass oid env (initFrame t)).2 = true := by
  have h := pollFold_fresh oid env (keysOf t) (initFrame t) rfl rfl
  simp [runPass, runPassNotify, pyNeq, initFrame] at h ⊢
  simp [h.1]

/-- Claim C10: for a pin never registered, `read` raises the generic
`KeyError` of the dict subscript, not the device-offline error. -/
theorem read_unregistered_raises_keyerror (t : Table) (pin : Pin)
    (h : dictGet t pin = none) :
    read t pin = ReadResult.keyError ∧ read t pin ≠ ReadResult.offline := by
  simp [read, h]

/-- Witness for C10 at a concrete input: reading pin 2 when only pin 1 is
registered. -/
theorem read_unregistered_raises_keyerror_witness :
    read [("1", (some true : Reading))] "2" = ReadResult.keyError ∧
    read [("1", (some true : Reading))] "2" ≠ ReadResult.offline :=
  read_unregistered_raises_keyerror [("1", some true)] "2" (by decide)

/-- Claim C1 (code bug witness computation): register pin 1 as an input; the
first pass fails its poll (table stays all-unknown) and notifies — recording
the snapshot, which after that pass is the table with pin 1 unknown; the
second pass successfully decodes pin 1 as on, so the table now differs from
that snapshot by full-table equality, yet no notification is raised (the
decisions are true then false), because `prev_state = self.__state` stored a
reference and the in-place per-pin update mutated both views at once. -/
theorem run_misses_change_after_notify :
    (runPasses "O"
        [fun _ => TransportOutcome.exn, fun _ => TransportOutcome.ok ⟨0, "O.4.1 = INTEGER: 1"⟩]
        (initFrame (registerAll [] [RegOp.inp "1"]))).2 = [true, false] ∧
    (runPasses "O" [fun _ => TransportOutcome.exn]
        (initFrame (registerAll [] [RegOp.inp "1"]))).1.state = [("1", none)] ∧
    (runPasses "O"
        [fun _ => TransportOutcome.exn, fun _ => TransportOutcome.ok ⟨0, "O.4.1 = INTEGER: 1"⟩]
        (initFrame (registerAll [] [RegOp.inp "1"]))).1.state = [("1", some true)] ∧
    dictEqb [("1", some true)] [("1", none)] = false := by
  refine ⟨by decide, by decide, by decide, by decide⟩

/-- Claim C7: after any registration sequence, the state table's key set is
exactly the set of registered pins with exactly one entry per pin, and it
stays so under every sequence of reconciliation passes, reads, and writes
addressed to registered pins — whole-table degradation replaces only the
values, never the key set. -/
theorem registered_keyset_invariant (oid : String) (regs : List RegOp)
    (ops : List DriverOp) (hw : ops.all (writeTargetOk regs) = true) :
    (∀ p, p ∈ keysOf (ops.foldl (applyOp oid) (registerAll [] regs)) ↔ p ∈ regPins regs) ∧
    (keysOf (ops.foldl (applyOp oid) (registerAll [] regs))).Nodup := by
  have hbase : ∀ p, p ∈ keysOf (registerAll [] regs) ↔ p ∈ regPins regs := by
    intro p
    have h := mem_keysOf_registerAll regs [] p
    simpa [keysOf_nil] using h
  have hnodup : (keysOf (registerAll [] regs)).Nodup :=
    nodup_keysOf_registerAll regs [] (by simp [keysOf_nil])
  have hfold : keysOf (ops.foldl (applyOp oid) (registerAll [] regs)) =
      keysOf (registerAll [] regs) :=
    keysOf_opsFold oid regs ops (registerAll [] regs) hw (fun p hp => (hbase p).mpr hp)
  exact ⟨fun p => by rw [hfold]; exact hbase p, by rw [hfold]; exact hnodup⟩

/-- Witness for C7 at a concrete input: two registered pins survive a failing
write, a failing pass, and a read with their key set intact. -/
theorem registered_keyset_invariant_witness :
    ("1" ∈ keysOf ([DriverOp.writeOp "1" true TransportOutcome.exn,
        DriverOp.pollPass (fun _ => TransportOutcome.exn),
        DriverOp.readOp "2"].foldl (applyOp "O")
        (registerAll [] [RegOp.out "1" (some false), RegOp.inp "2"])) ↔
      "1" ∈ regPins [RegOp.out "1" (some false), RegOp.inp "2"]) ∧
    (keysOf ([DriverOp.writeOp "1" true TransportOutcome.exn,
        DriverOp.pollPass (fun _ => TransportOutcome.exn),
        DriverOp.readOp "2"].foldl (applyOp "O")
        (registerAll [] [RegOp.out "1" (some false), RegOp.inp "2"]))).Nodup := by
  have h := registered_keyset_invariant "O" [RegOp.out "1" (some false), RegOp.inp "2"]
      [DriverOp.writeOp "1" true TransportOutcome.exn,
       DriverOp.pollPass (fun _ => TransportOutcome.exn),
       DriverOp.readOp "2"] (by rfl)
  exact ⟨h.1 "1", h.2⟩

end Cyberpower
